import Mathlib

/-!
Shallow embedding of the incremental-ingestion ETL core
(src/ingestion/base.py, src/ingestion/runner.py,
src/ingestion/loaders/postgres_loader.py,
src/ingestion/transformers/normalizer.py, src/schemas/normalized.py,
src/ingestion/extractors/api_extractor.py) together with proofs of the
spec-level properties about it.

Conventions of the embedding:
- JSON payload values become the inductive `Val` (strings, integers, null);
  numeric values are embedded as integers, timestamps as integers holding
  the parsed instant, `isoformat` as decimal rendering.
- Database tables become in-memory lists; every phase commit of the Python
  code becomes a state update, and a session rollback discards only the
  updates of the phase that failed (each phase in the source commits
  independently).
- Python exceptions become `Except` values or explicit error results.
- Audit-only columns that no claim mentions (uuid, durations, ingestion
  instants, processed_at, error detail payloads) are not carried.
-/

/-- models.base.SourceType (api / csv / rss). -/
inductive SourceType
  | api
  | csv
  | rss
deriving DecidableEq, Repr

/-- models.base.ETLStatus; the PARTIAL member is written partialSuccess. -/
inductive ETLStatus
  | pending
  | running
  | success
  | failed
  | partialSuccess
deriving DecidableEq, Repr

/-- A JSON scalar as it appears in a raw payload. -/
inductive Val
  | vStr (s : String)
  | vNum (n : Int)
  | vNull
deriving DecidableEq, Repr

/-- A raw payload: a JSON object, as a key/value association list. -/
abbrev Payload := List (String × Val)

/-- Python dict.get(k): the value when the key is present (even null). -/
def Payload.get (p : Payload) (k : String) : Option Val :=
  (p.find? (fun kv => kv.1 == k)).map (fun kv => kv.2)

/-- Python dict.get(k, d): presence-based lookup with a default value. -/
def Payload.getD (p : Payload) (k : String) (d : Val) : Val :=
  (Payload.get p k).getD d

/-- Python dict.get(k, d) where the default is itself an optional lookup. -/
def Payload.getOr (p : Payload) (k : String) (d : Option Val) : Option Val :=
  match Payload.get p k with
  | some v => some v
  | none => d

/-- Python str(v) applied to a JSON scalar (str(None) is the text None). -/
def pyStr : Val → String
  | Val.vStr s => s
  | Val.vNum n => toString n
  | Val.vNull => "None"

/-- Python string comparison, character by character over code points:
a < b lexicographically. -/
def pyStrLtChars : List Char → List Char → Bool
  | [], [] => false
  | [], _ :: _ => true
  | _ :: _, [] => false
  | c :: cs, d :: ds =>
      if c.toNat < d.toNat then true
      else if d.toNat < c.toNat then false
      else pyStrLtChars cs ds

/-- Python s1 < s2 on strings. -/
def pyStrLt (a b : String) : Bool :=
  pyStrLtChars a.data b.data

/-- Python max over a list of strings: the first maximal element (a later
element replaces the current one only when strictly greater). -/
def pyMax : List String → Option String
  | [] => none
  | s :: rest => some (rest.foldl (fun m x => if pyStrLt m x then x else m) s)

/-- Python str.strip(): drop leading and trailing whitespace. -/
def pyStrip (s : String) : String :=
  ⟨((s.data.dropWhile Char.isWhitespace).reverse.dropWhile Char.isWhitespace).reverse⟩

/-- Python slicing s[:n]: the first n characters. -/
def pyTake (s : String) (n : Nat) : String :=
  ⟨s.data.take n⟩

/-- One decimal digit of a Python numeric literal. -/
def pyDigit (c : Char) : Option Nat :=
  if 48 ≤ c.toNat ∧ c.toNat ≤ 57 then some (c.toNat - 48) else none

/-- The digits of a Python integer literal, most significant first. -/
def pyParseDigits : List Char → Nat → Option Nat
  | [], _ => none
  | [c], acc => (pyDigit c).map (fun d => acc * 10 + d)
  | c :: cs, acc =>
      match pyDigit c with
      | none => none
      | some d => pyParseDigits cs (acc * 10 + d)

/-- Python float(s)/int(s) on a string, for integral literals with an
optional sign: the parsed integer, or none when the literal is malformed
(the ValueError the normalizer catches). -/
def pyParseNumber (s : String) : Option Int :=
  match s.data with
  | '-' :: rest => (pyParseDigits rest 0).map (fun n => -(n : Int))
  | chars => (pyParseDigits chars 0).map (fun n => (n : Int))

/-- APIExtractor.extract_record_id: str(record.get(id_field, "")) with the
default id field id. -/
def extract_record_id (record : Payload) : String :=
  pyStr (Payload.getD record "id" (Val.vStr ""))

/-- APIExtractor.extract_timestamp: the parsed instant of the created_at
field; a missing or unparseable value yields none. -/
def extract_timestamp (record : Payload) : Option Int :=
  match Payload.get record "created_at" with
  | some (Val.vNum n) => some n
  | _ => none

/-- The checkpoint_type strings "timestamp" and "id" used by DataSource. -/
inductive CheckpointType
  | timestamp
  | id
deriving DecidableEq, Repr

/-- DataSource._calculate_checkpoint (src/ingestion/base.py lines 290-307):
max timestamp for timestamp checkpoints, max id string for id checkpoints,
and in all remaining cases the current instant datetime.utcnow().isoformat()
(modelled by the parameter now). -/
def _calculate_checkpoint (ckType : CheckpointType) (records : List Payload)
    (now : Int) : String :=
  match ckType with
  | CheckpointType.timestamp =>
      match (records.filterMap extract_timestamp).max? with
      | some m => toString m
      | none => toString now
  | CheckpointType.id =>
      match pyMax (records.map extract_record_id) with
      | some m => m
      | none => toString now

/-- schemas.normalized.UnifiedItemCreate, restricted to the columns the
verified properties mention; tags, metadata, url, image_url, author,
category, status and published_at are omitted audit payload (the loader
overwrites them with the incoming value exactly like the carried fields). -/
structure UnifiedItemCreate where
  source_type : SourceType
  source_name : String
  external_id : String
  raw_data_id : Nat
  title : String
  description : Option String
  amount : Option Int
  quantity : Option Int
  rating : Option Int
deriving DecidableEq, Repr

/-- DataNormalizer._parse_float: None or the empty string give None, an
unparseable string gives None (the caught ValueError), a number parses. -/
def _parse_float (value : Option Val) : Option Int :=
  match value with
  | none => none
  | some Val.vNull => none
  | some (Val.vStr s) => if s = "" then none else pyParseNumber s
  | some (Val.vNum n) => some n

/-- DataNormalizer._parse_int: same guard, via int(float(value)). -/
def _parse_int (value : Option Val) : Option Int :=
  _parse_float value

/-- The value pydantic accepts for the str-typed title field: strings stay,
numbers are coerced to their decimal text, null is a type error. -/
def titleOfVal : Val → Option String
  | Val.vStr s => some s
  | Val.vNum n => some (toString n)
  | Val.vNull => none

/-- DataNormalizer._normalize_api (src/ingestion/transformers/normalizer.py
lines 47-69) composed with the UnifiedItemCreate validation
(src/schemas/normalized.py): field constraints (length bounds, nonnegative
numerics, rating at most 5) and the clean_title validator, which strips the
title and rejects a value that is empty after stripping.  A raised pydantic
ValidationError is the error case; pydantic collects every field error while
this embedding stops at the first one, which is equivalent at the level of
record success or failure. -/
def _normalize_api_core (source_name : String) (record : Payload) :
    Except String (Nat → UnifiedItemCreate) :=
  let external_id :=
    pyStr (Payload.getD record "id" (Payload.getD record "item_id" (Val.vStr "")))
  if source_name.length < 1 then Except.error "source_name: too short" else
  if external_id.length < 1 then Except.error "external_id: too short" else
  if 255 < external_id.length then Except.error "external_id: too long" else
  match titleOfVal (Payload.getD record "name"
      (Payload.getD record "title" (Val.vStr "Untitled"))) with
  | none => Except.error "title: none is not an allowed value"
  | some t =>
    if t.length < 1 then Except.error "title: too short" else
    if 500 < t.length then Except.error "title: too long" else
    if pyStrip t = "" then Except.error "title: Title cannot be empty after stripping" else
    let amount := _parse_float (Payload.getOr record "price" (Payload.get record "cost"))
    let quantity := _parse_int (Payload.getOr record "quantity" (Payload.get record "stock"))
    let rating := _parse_float (Payload.get record "rating")
    if amount.any (fun a => decide (a < 0)) then Except.error "amount: not ge 0" else
    if quantity.any (fun q => decide (q < 0)) then Except.error "quantity: not ge 0" else
    if rating.any (fun r => decide (r < 0) || decide (5 < r)) then
      Except.error "rating: out of range" else
    Except.ok (fun raw_data_id =>
      { source_type := SourceType.api
        source_name := source_name
        external_id := external_id
        raw_data_id := raw_data_id
        title := pyStrip t
        description :=
          match Payload.getD record "description" (Val.vStr "") with
          | Val.vNull => none
          | v => some (pyStr v)
        amount := amount
        quantity := quantity
        rating := rating })

/-- The normalizer entry point for one API record: the raw_data_id is only
stamped into the produced item, so it is kept outside the validation core. -/
def _normalize_api (source_name : String) (record : Payload)
    (raw_data_id : Nat) : Except String UnifiedItemCreate :=
  (_normalize_api_core source_name record).map (fun mk => mk raw_data_id)

/-- Whether a raw API payload survives normalization plus validation. -/
def normOk (source_name : String) (record : Payload) : Bool :=
  (_normalize_api source_name record 0).toOption.isSome

/-- The natural key the loader upserts on: (source_type, source_name,
external_id). -/
def itemKey (it : UnifiedItemCreate) : SourceType × String × String :=
  (it.source_type, it.source_name, it.external_id)

/-- One INSERT ... ON CONFLICT (source_type, source_name, external_id)
DO UPDATE of PostgresLoader.load: the first row carrying the key is
replaced whole (every mutable column is set to the incoming value), and a
missing key appends a fresh row. -/
def upsert_item (store : List UnifiedItemCreate) (it : UnifiedItemCreate) :
    List UnifiedItemCreate :=
  match store with
  | [] => [it]
  | row :: rest =>
      if itemKey row = itemKey it then it :: rest
      else row :: upsert_item rest it

/-- PostgresLoader.load (src/ingestion/loaders/postgres_loader.py lines
29-86): an empty batch returns count 0 untouched; otherwise each item is
upserted in order and loaded_count is incremented once per item,
insert and update alike.  Returns (loaded_count, table after commit). -/
def load (store : List UnifiedItemCreate) (items : List UnifiedItemCreate) :
    Nat × List UnifiedItemCreate :=
  match items with
  | [] => (0, store)
  | _ :: _ =>
      items.foldl (fun acc it => (acc.1 + 1, upsert_item acc.2 it)) (0, store)

/-- The in-memory circuit breaker state of one APIExtractor instance
(src/ingestion/extractors/api_extractor.py lines 79-83): the consecutive
failure tally and the instant until which the circuit is open. -/
structure CircuitBreakerState where
  failures : Nat
  openUntil : Option Int
deriving DecidableEq, Repr

/-- The default circuit_breaker_threshold. -/
def circuitBreakerThreshold : Nat := 5

/-- The default circuit_breaker_timeout in seconds. -/
def circuitBreakerTimeout : Int := 60

/-- APIExtractor._record_failure: increment the tally and open the circuit
for the cooldown window once the tally reaches the threshold. -/
def _record_failure (st : CircuitBreakerState) (now : Int) : CircuitBreakerState :=
  let f := st.failures + 1
  if circuitBreakerThreshold ≤ f then
    { failures := f, openUntil := some (now + circuitBreakerTimeout) }
  else
    { st with failures := f }

/-- APIExtractor._record_success: clear the tally and close the circuit. -/
def _record_success (_st : CircuitBreakerState) : CircuitBreakerState :=
  { failures := 0, openUntil := none }

/-- APIExtractor._is_circuit_open (lines 85-97): closed when never opened;
when the cooldown instant has been reached the state resets (tally cleared,
circuit closed) and the call reports closed; otherwise open.  Returns the
answer together with the possibly-reset state, mirroring the mutation. -/
def _is_circuit_open (st : CircuitBreakerState) (now : Int) :
    Bool × CircuitBreakerState :=
  match st.openUntil with
  | none => (false, st)
  | some t =>
      if t ≤ now then (false, { failures := 0, openUntil := none })
      else (true, st)

/-- Whether a request attempt was stopped at the circuit breaker gate of
_make_request_with_retry (lines 140-149) or allowed to reach the network. -/
inductive GateResult
  | shortCircuited
  | networkAttempted
deriving DecidableEq, Repr

/-- The circuit breaker gate at the top of _make_request_with_retry: an open
circuit raises immediately, before any attempt loop or network call. -/
def requestGate (st : CircuitBreakerState) (now : Int) :
    GateResult × CircuitBreakerState :=
  let res := _is_circuit_open st now
  if res.1 then (GateResult.shortCircuited, res.2)
  else (GateResult.networkAttempted, res.2)

/-- One whole request call that passes the gate and then fails (every retry
exhausted): the extractor records exactly one breaker failure for it. -/
def failedRequest (st : CircuitBreakerState) (now : Int) : CircuitBreakerState :=
  let g := requestGate st now
  match g.1 with
  | GateResult.shortCircuited => g.2
  | GateResult.networkAttempted => _record_failure g.2 now

/-- n consecutive failing requests, all at instant t. -/
def iterFailures : Nat → CircuitBreakerState → Int → CircuitBreakerState
  | 0, st, _ => st
  | n + 1, st, t => iterFailures n (failedRequest st t) t

/-- What one HTTP attempt inside _make_request_with_retry observes: a good
response, a response with a given status code and body (the rateLimited
case carries the optional Retry-After header), a transport timeout, or a
transport-level connection failure. -/
inductive HttpOutcome
  | ok
  | status (code : Nat) (body : String)
  | rateLimited (retryAfterHeader : Option Int) (body : String)
  | timeout
  | connectFail
deriving DecidableEq, Repr

/-- The context dict attached to the NetworkError raised on exhaustion
(api_url, source_name, retry_count, and for a 5xx the truncated body). -/
structure NetworkErrorCtx where
  api_url : String
  source_name : String
  retry_count : Nat
  response_body : Option String
deriving DecidableEq, Repr

/-- The result of _make_request_with_retry: a response, or one of the
exceptions it raises (core/exceptions.py; NetworkError and RateLimitError
are RetryableError subclasses, AuthenticationError and
ResourceNotFoundError are NonRetryableError subclasses). -/
inductive RequestResult
  | okResponse (attempt : Nat)
  | networkError (ctx : NetworkErrorCtx)
  | rateLimitError (api_url source_name : String) (retry_count : Nat) (retry_after : Int)
  | authenticationError (api_url source_name : String) (status : Nat)
  | resourceNotFoundError (api_url source_name : String)
  | apiExtractionError (api_url source_name : String) (retry_count : Nat)
deriving DecidableEq, Repr

/-- The attempt loop of APIExtractor._make_request_with_retry
(src/ingestion/extractors/api_extractor.py lines 151-300), past the circuit
breaker gate.  attempt is the 0-based loop index, remaining + 1 the number
of attempts still available, delays the asyncio.sleep schedule accumulated
so far, respond the network (attempt index to observed outcome).  401/403
and 404 raise immediately; 429 sleeps the Retry-After hint (or the
exponential delay) and retries, raising RateLimitError on the last attempt;
a 5xx or a transport failure sleeps retry_delay * 2 ^ attempt and retries,
raising NetworkError on the last attempt; any other non-2xx status falls
into the generic handler, which retries and finally raises
APIExtractionError.  The returned list is the full sleep schedule. -/
def retryGo (api_url source_name : String) (retry_delay : Int)
    (respond : Nat → HttpOutcome) :
    Nat → Nat → List Int → RequestResult × List Int
  | attempt, 0, delays =>
      (RequestResult.apiExtractionError api_url source_name attempt, delays)
  | attempt, remaining + 1, delays =>
      match respond attempt with
      | HttpOutcome.ok => (RequestResult.okResponse attempt, delays)
      | HttpOutcome.status code body =>
          if code = 401 ∨ code = 403 then
            (RequestResult.authenticationError api_url source_name code, delays)
          else if code = 404 then
            (RequestResult.resourceNotFoundError api_url source_name, delays)
          else if 500 ≤ code then
            if remaining = 0 then
              (RequestResult.networkError
                { api_url := api_url, source_name := source_name,
                  retry_count := attempt + 1,
                  response_body := some (pyTake body 500) }, delays)
            else
              retryGo api_url source_name retry_delay respond
                (attempt + 1) remaining (delays ++ [retry_delay * 2 ^ attempt])
          else if 400 ≤ code then
            if remaining = 0 then
              (RequestResult.apiExtractionError api_url source_name (attempt + 1), delays)
            else
              retryGo api_url source_name retry_delay respond
                (attempt + 1) remaining (delays ++ [retry_delay * 2 ^ attempt])
          else (RequestResult.okResponse attempt, delays)
      | HttpOutcome.rateLimited hdr _body =>
          let retry_after := hdr.getD (retry_delay * 2 ^ attempt)
          if remaining = 0 then
            (RequestResult.rateLimitError api_url source_name (attempt + 1) retry_after,
             delays)
          else
            retryGo api_url source_name retry_delay respond
              (attempt + 1) remaining (delays ++ [retry_after])
      | HttpOutcome.timeout =>
          if remaining = 0 then
            (RequestResult.networkError
              { api_url := api_url, source_name := source_name,
                retry_count := attempt + 1, response_body := none }, delays)
          else
            retryGo api_url source_name retry_delay respond
              (attempt + 1) remaining (delays ++ [retry_delay * 2 ^ attempt])
      | HttpOutcome.connectFail =>
          if remaining = 0 then
            (RequestResult.networkError
              { api_url := api_url, source_name := source_name,
                retry_count := attempt + 1, response_body := none }, delays)
          else
            retryGo api_url source_name retry_delay respond
              (attempt + 1) remaining (delays ++ [retry_delay * 2 ^ attempt])

/-- APIExtractor._make_request_with_retry past an already-closed circuit:
for attempt in range(max_retries), starting at attempt 0 with no sleeps
yet.  The default max_retries is 3 and the default retry_delay 1 second. -/
def _make_request_with_retry (api_url source_name : String)
    (max_retries : Nat) (retry_delay : Int) (respond : Nat → HttpOutcome) :
    RequestResult × List Int :=
  retryGo api_url source_name retry_delay respond 0 max_retries []

/-- A retryable attempt outcome in the sense of the C8 retry property: a
transport timeout, a transport connection failure, or an HTTP 5xx. -/
def retryableOutcome : HttpOutcome → Prop
  | HttpOutcome.timeout => True
  | HttpOutcome.connectFail => True
  | HttpOutcome.status code _ => 500 ≤ code
  | _ => False

/-- The truncated response body the final NetworkError carries for a given
last-attempt outcome: the first 500 characters for a 5xx, nothing for a
transport failure. -/
def truncatedBody : HttpOutcome → Option String
  | HttpOutcome.status _ body => some (pyTake body 500)
  | _ => none

/-- A models.raw_data.RawData row, restricted to the columns the claims
mention (id, source tagging, payload, processed flag). -/
structure RawRow where
  id : Nat
  source_type : SourceType
  source_name : String
  source_id : String
  payload : Payload
  processed : Bool
deriving DecidableEq, Repr

/-- A models.checkpoint.ETLCheckpoint row (one per source), restricted to
the watermark, status and counter columns. -/
structure Checkpoint where
  checkpoint_value : String
  status : ETLStatus
  total_runs : Nat
  total_records_processed : Nat
  last_records_processed : Nat
  error_message : Option String
deriving DecidableEq, Repr

/-- A models.etl_run.ETLRun row, restricted to the claim-relevant columns,
plus finalize_count: the number of times complete_etl_run wrote this row
(each call sets the terminal status, completed instant and counts). -/
structure RunRecord where
  status : ETLStatus
  records_extracted : Nat
  records_loaded : Nat
  records_failed : Nat
  checkpoint_before : String
  checkpoint_after : Option String
  error_message : Option String
  finalize_count : Nat
deriving DecidableEq, Repr

/-- The durable state the pipeline touches: the raw_data table, the
unified_items table, the etl_checkpoints row of this source, the etl_runs
table (most recent run first), and the raw_data autoincrement counter. -/
structure PipelineState where
  raws : List RawRow
  store : List UnifiedItemCreate
  checkpoint : Option Checkpoint
  runs : List RunRecord
  next_raw_id : Nat
deriving DecidableEq, Repr

/-- DataSource.start_etl_run: insert a new ETLRun row with status RUNNING
and the watermark before the run; it becomes the current run. -/
def start_etl_run (st : PipelineState) (checkpoint_before : String) :
    PipelineState :=
  { st with runs :=
      { status := ETLStatus.running
        records_extracted := 0
        records_loaded := 0
        records_failed := 0
        checkpoint_before := checkpoint_before
        checkpoint_after := none
        error_message := none
        finalize_count := 0 } :: st.runs }

/-- DataSource.complete_etl_run (src/ingestion/base.py lines 142-164): write
the terminal status, counts, watermark after and error message onto the
current run and commit; a no-op when no run was started. -/
def complete_etl_run (st : PipelineState) (status : ETLStatus)
    (records_extracted records_loaded records_failed : Nat)
    (checkpoint_after : Option String) (error_message : Option String) :
    PipelineState :=
  match st.runs with
  | [] => st
  | r :: rest =>
      { st with runs :=
          { r with
            status := status
            records_extracted := records_extracted
            records_loaded := records_loaded
            records_failed := records_failed
            checkpoint_after := checkpoint_after
            error_message := error_message
            finalize_count := r.finalize_count + 1 } :: rest }

/-- DataSource.create_or_update_checkpoint (lines 77-125): create the row on
first call, otherwise overwrite the watermark and status, bump total_runs,
accumulate total_records_processed, overwrite last_records_processed; the
call commits on its own. -/
def create_or_update_checkpoint (st : PipelineState) (checkpoint_value : String)
    (status : ETLStatus) (records_processed : Nat)
    (error_message : Option String) : PipelineState :=
  match st.checkpoint with
  | none =>
      let c : Checkpoint :=
        { checkpoint_value := checkpoint_value
          status := status
          total_runs := 1
          total_records_processed := records_processed
          last_records_processed := records_processed
          error_message := error_message }
      { st with checkpoint := some c }
  | some c0 =>
      let c : Checkpoint :=
        { checkpoint_value := checkpoint_value
          status := status
          total_runs := c0.total_runs + 1
          total_records_processed := c0.total_records_processed + records_processed
          last_records_processed := records_processed
          error_message := error_message }
      { st with checkpoint := some c }

/-- The RawData rows DataSource.save_raw_data builds for a fetched batch:
sequential autoincrement ids starting at nid, tagged with the source and
the payload-derived source id, processed false. -/
def mkRawRows (source_name : String) (nid : Nat) : List Payload → List RawRow
  | [] => []
  | p :: ps =>
      { id := nid
        source_type := SourceType.api
        source_name := source_name
        source_id := extract_record_id p
        payload := p
        processed := false } :: mkRawRows source_name (nid + 1) ps

/-- DataSource.save_raw_data (lines 166-188): append one RawData row per
fetched record and commit. -/
def save_raw_data (st : PipelineState) (source_name : String)
    (records : List Payload) : PipelineState :=
  { st with
    raws := st.raws ++ mkRawRows source_name st.next_raw_id records
    next_raw_id := st.next_raw_id + records.length }

/-- The dict DataSource.run_incremental returns to the runner; the
zero-record early return carries no checkpoint key, so the runner reads a
checkpoint of None from it. -/
structure ExtractResult where
  records_extracted : Nat
  checkpoint : Option String
deriving DecidableEq, Repr

/-- DataSource.run_incremental (src/ingestion/base.py lines 190-288),
specialized to an API source whose fetch_data cannot raise (the claims it
serves inject failures in the loader, not in extraction): read the
watermark, start the run, fetch, and on zero records finalize SUCCESS with
the watermark unchanged; otherwise persist the raw batch, compute the new
watermark, finalize the run SUCCESS with loaded set to the extracted count,
and advance the checkpoint to the new watermark with status SUCCESS - all
before the load phase of the runner itself. -/
def run_incremental (st0 : PipelineState) (source_name : String)
    (ckType : CheckpointType) (fetch : String → List Payload) (now : Int) :
    PipelineState × ExtractResult :=
  let checkpoint_value :=
    match st0.checkpoint with
    | some c => c.checkpoint_value
    | none => ""
  let st1 := start_etl_run st0 checkpoint_value
  let records := fetch checkpoint_value
  if records.length = 0 then
    let st2 := complete_etl_run st1 ETLStatus.success 0 0 0
      (some checkpoint_value) none
    let st3 := create_or_update_checkpoint st2 checkpoint_value
      ETLStatus.success 0 none
    (st3, { records_extracted := 0, checkpoint := none })
  else
    let st2 := save_raw_data st1 source_name records
    let newCk := _calculate_checkpoint ckType records now
    let st3 := complete_etl_run st2 ETLStatus.success
      records.length records.length 0 (some newCk) none
    let st4 := create_or_update_checkpoint st3 newCk
      ETLStatus.success records.length none
    (st4, { records_extracted := records.length, checkpoint := some newCk })

/-- The phase-2 sweep of ETLRunner.run (lines 135-144): the unprocessed
RawData rows of this source, in table order, capped at 1000. -/
def unprocessedFor (st : PipelineState) (source_name : String) : List RawRow :=
  (st.raws.filter (fun r =>
    r.source_type == SourceType.api && r.source_name == source_name
      && r.processed == false)).take 1000

/-- The failed_raw_ids list the phase-3 loop of ETLRunner.run accumulates:
the ids of the swept rows whose normalization raised. -/
def failedIdsOf (source_name : String) (rows : List RawRow) : List Nat :=
  rows.filterMap (fun r =>
    match _normalize_api source_name r.payload r.id with
    | Except.error _ => some r.id
    | Except.ok _ => none)

/-- The normalized_items list the phase-3 loop accumulates: the successful
normalizations of the swept rows, in sweep order. -/
def normalizedOf (source_name : String) (rows : List RawRow) :
    List UnifiedItemCreate :=
  rows.filterMap (fun r => (_normalize_api source_name r.payload r.id).toOption)

/-- The successfully_processed_ids of phase 5 (lines 238-241): ids of swept
rows not in failed_raw_ids. -/
def markIdsOf (source_name : String) (rows : List RawRow) : List Nat :=
  rows.filterMap (fun r =>
    if r.id ∈ failedIdsOf source_name rows then none else some r.id)

/-- The dict ETLRunner.run returns (or the error it lets propagate: status
failed models the raised LoadError reaching the caller). -/
structure RunnerResult where
  status : String
  records_extracted : Nat
  records_loaded : Nat
  records_failed : Nat
deriving DecidableEq, Repr

/-- ETLRunner.run (src/ingestion/runner.py lines 53-345), specialized to an
API-source extractor whose fetch succeeds.  Phase 1 delegates to
run_incremental (which already persists the raw batch, finalizes the run
SUCCESS and advances the checkpoint), short-circuiting on zero extracted
records.  Phase 2 sweeps the unprocessed raw rows of the source (cap
1000), phase 3 normalizes each row - a per-record failure is absorbed
into failed_raw_ids - and phase 4 upserts the normalized batch unless it
is empty.  loaderFails injects the forced loader failure of the failure
tests: the raised exception rolls the session back (the committed raw rows
and checkpoint stay), completes the run FAILED with the counts so far
(records_loaded still 0, checkpoint_after overwritten with None) and
propagates.  Phase 5 marks exactly the swept rows outside failed_raw_ids
processed; phase 6 completes the run a second time with SUCCESS or PARTIAL
and the final counts. -/
def runner_run (st0 : PipelineState) (source_name : String)
    (ckType : CheckpointType) (fetch : String → List Payload) (now : Int)
    (loaderFails : Bool) : PipelineState × RunnerResult :=
  let step1 := run_incremental st0 source_name ckType fetch now
  let st1 := step1.1
  let records_extracted := step1.2.records_extracted
  if records_extracted = 0 then
    (st1, { status := "success", records_extracted := 0,
            records_loaded := 0, records_failed := 0 })
  else
    let raw_records := unprocessedFor st1 source_name
    let normalized_items := normalizedOf source_name raw_records
    let failed_raw_ids := failedIdsOf source_name raw_records
    let records_failed := failed_raw_ids.length
    if loaderFails ∧ normalized_items ≠ [] then
      let st2 := complete_etl_run st1 ETLStatus.failed
        records_extracted 0 records_failed none
        (some "Failed to load normalized data")
      (st2, { status := "failed", records_extracted := records_extracted,
              records_loaded := 0, records_failed := records_failed })
    else
      let loadRes := load st1.store normalized_items
      let records_loaded := loadRes.1
      let st2 := { st1 with store := loadRes.2 }
      let markIds := markIdsOf source_name raw_records
      let st3 := { st2 with raws := st2.raws.map (fun r =>
        if r.id ∈ markIds then { r with processed := true } else r) }
      let status :=
        if records_failed = 0 then ETLStatus.success else ETLStatus.partialSuccess
      let st4 := complete_etl_run st3 status
        records_extracted records_loaded records_failed step1.2.checkpoint
        (if records_failed = 0 then none else some "records failed")
      (st4, { status := if records_failed = 0 then "success" else "partial_success",
              records_extracted := records_extracted,
              records_loaded := records_loaded,
              records_failed := records_failed })

/-- The key column triple of every row of a unified store, in row order. -/
abbrev storeKeys (store : List UnifiedItemCreate) : List (SourceType × String × String) :=
  store.map itemKey

/-- The row of the store carrying a key, if any (the first one). -/
def findKey (store : List UnifiedItemCreate) (k : SourceType × String × String) :
    Option UnifiedItemCreate :=
  store.find? (fun r => decide (itemKey r = k))

/-- Folding the whole batch through single-row upserts, as the loader loop
does. -/
def applyAll (store : List UnifiedItemCreate) (items : List UnifiedItemCreate) :
    List UnifiedItemCreate :=
  items.foldl upsert_item store

/-- The last item of the batch that writes a given key, if any: the row
value the loader loop leaves under that key. -/
def lastWrite (items : List UnifiedItemCreate)
    (k : SourceType × String × String) : Option UnifiedItemCreate :=
  items.foldl (fun acc it => if itemKey it = k then some it else acc) none

/-- A concrete batch with a repeated natural key, for the loader claims. -/
def sampleItem (eid : String) (amt : Option Int) : UnifiedItemCreate :=
  { source_type := SourceType.api
    source_name := "api_products"
    external_id := eid
    raw_data_id := 0
    title := "T"
    description := none
    amount := amt
    quantity := none
    rating := none }

/-- Concrete loader batch used by the claim C3 witness. -/
def c3Items : List UnifiedItemCreate :=
  [sampleItem "1" (some 10), sampleItem "2" (some 20), sampleItem "1" (some 30)]

/-- Concrete loader batch used by the claim C10 witness. -/
def c10Items : List UnifiedItemCreate :=
  [sampleItem "1" (some 10), sampleItem "1" (some 11), sampleItem "2" (some 20)]

/-- A fetched API record with external id api_001 and timestamp 5, as in
the repository fixtures. -/
def c1_record : Payload :=
  [("id", Val.vStr "api_001"), ("name", Val.vStr "Test Product 1"),
   ("price", Val.vNum 99), ("created_at", Val.vNum 5)]

/-- A fetch that returns the record batch at every watermark (fetch is pure
with respect to the watermark and the breakage needs only one run). -/
def c1_fetch : String → List Payload := fun _ => [c1_record]

/-- The source checkpoint before the claim C1 run: watermark 0 from an
earlier successful run. -/
def c1_checkpoint0 : Checkpoint :=
  { checkpoint_value := "0"
    status := ETLStatus.success
    total_runs := 1
    total_records_processed := 1
    last_records_processed := 1
    error_message := none }

/-- The durable state before the claim C1 run. -/
def c1_state0 : PipelineState :=
  { raws := [], store := [], checkpoint := some c1_checkpoint0, runs := [],
    next_raw_id := 0 }

/-- First record of the claim C2 scenario (timestamp 5). -/
def c2_rec1 : Payload :=
  [("id", Val.vStr "api_001"), ("name", Val.vStr "Test Product 1"),
   ("price", Val.vNum 99), ("created_at", Val.vNum 5)]

/-- Second record of the claim C2 scenario (timestamp 7). -/
def c2_rec2 : Payload :=
  [("id", Val.vStr "api_002"), ("name", Val.vStr "Test Product 2"),
   ("price", Val.vNum 19), ("created_at", Val.vNum 7)]

/-- A watermark-honoring fetch with no new upstream data after the first
window: both records at the initial empty watermark, nothing newer than an
advanced one.  This is the at-least-once source of the spec when the
upstream has produced nothing new between the two runs. -/
def c2_fetch : String → List Payload :=
  fun w => if w = "" then [c2_rec1, c2_rec2] else []

/-- The fresh durable state before claim C2 run 1 (no prior checkpoint). -/
def c2_state0 : PipelineState :=
  { raws := [], store := [], checkpoint := none, runs := [], next_raw_id := 0 }

/-- Claim C2 run 1: forced loader failure after the raw batch persisted. -/
def c2_state1 : PipelineState :=
  (runner_run c2_state0 "recovery_test_api" CheckpointType.timestamp c2_fetch 9 true).1

/-- Claim C2 run 2: same source, no failure injected. -/
def c2_run2 : PipelineState × RunnerResult :=
  runner_run c2_state1 "recovery_test_api" CheckpointType.timestamp c2_fetch 9 false

/-- A payload whose title is blank after stripping: its normalization is a
per-record validation failure. -/
def c4_bad_payload : Payload :=
  [("id", Val.vStr "old_1"), ("name", Val.vStr "   ")]

/-- An unprocessed RawData row left over from an earlier run, carrying the
failing payload. -/
def c4_leftover : RawRow :=
  { id := 0, source_type := SourceType.api, source_name := "api",
    source_id := "old_1", payload := c4_bad_payload, processed := false }

/-- A fresh record that normalizes fine. -/
def c4_good : Payload :=
  [("id", Val.vStr "new_1"), ("name", Val.vStr "Fresh"), ("created_at", Val.vNum 3)]

/-- Durable state with the leftover unprocessed row already present. -/
def c4_state0 : PipelineState :=
  { raws := [c4_leftover], store := [], checkpoint := none, runs := [],
    next_raw_id := 1 }

/-- Fetch for the claim C4 counterexample run: one good record. -/
def c4_fetch : String → List Payload := fun _ => [c4_good]

/-- A good record for the claim C4 witness batch. -/
def c4w_good : Payload :=
  [("id", Val.vStr "w_ok"), ("name", Val.vStr "Fine"), ("created_at", Val.vNum 2)]

/-- A normalization-failing record (blank title) for the claim C4 witness
batch. -/
def c4w_bad : Payload :=
  [("id", Val.vStr "w_bad"), ("name", Val.vStr " ")]

/-- The claim C4 witness batch: two records, one failing normalization. -/
def c4w_records : List Payload := [c4w_good, c4w_bad]

/-- A record carrying no created_at at all: its extracted timestamp is
absent. -/
def c6_record : Payload := [("id", Val.vStr "a1"), ("name", Val.vStr "A")]

/-- Claim C6 witness records with timestamps 5 and 7. -/
def c6w_rec1 : Payload := [("id", Val.vStr "a1"), ("created_at", Val.vNum 5)]

/-- Second claim C6 witness record. -/
def c6w_rec2 : Payload := [("id", Val.vStr "b2"), ("created_at", Val.vNum 7)]

/-- The record of the repository test
test_transformation_failure_partial_success that carries no name and no
title key (and an unparseable price). -/
def c7_missing_title : Payload :=
  [("id", Val.vStr "invalid_001"), ("description", Val.vStr "Invalid product"),
   ("price", Val.vStr "not_a_number")]

/-- A record whose name is present but blank after stripping. -/
def c7_blank_title : Payload :=
  [("id", Val.vStr "blank_1"), ("name", Val.vStr "   ")]

/-- A record that normalizes fine, batch-mate of the failing one. -/
def c7_good : Payload :=
  [("id", Val.vStr "valid_001"), ("name", Val.vStr "Valid Product"),
   ("price", Val.vNum 99), ("created_at", Val.vNum 5)]

/-- The single fetched record of the claim C9 scenario. -/
def c9_record : Payload :=
  [("id", Val.vStr "api_001"), ("name", Val.vStr "A"), ("created_at", Val.vNum 5)]

/-- Fetch for the claim C9 scenario. -/
def c9_fetch : String → List Payload := fun _ => [c9_record]

/-- Fresh durable state for the claim C9 scenario. -/
def c9_state0 : PipelineState :=
  { raws := [], store := [], checkpoint := none, runs := [], next_raw_id := 0 }

/-- A network that answers HTTP 503 with a short body on every attempt. -/
def c8_respond : Nat → HttpOutcome :=
  fun _ => HttpOutcome.status 503 "Service Unavailable"

/-- Fresh durable state for the claim C4 witness run. -/
def c4w_state0 : PipelineState :=
  { raws := [], store := [], checkpoint := none, runs := [], next_raw_id := 0 }

-- ==================== THEOREMS ====================

theorem load_pair (items : List UnifiedItemCreate) :
    ∀ (n : Nat) (s : List UnifiedItemCreate),
      items.foldl (fun acc it => (acc.1 + 1, upsert_item acc.2 it)) (n, s)
        = (n + items.length, applyAll s items) := by
  induction items with
  | nil => intro n s; simp [applyAll]
  | cons a l ih =>
      intro n s
      simp only [List.foldl_cons, applyAll, ih, List.length_cons, Prod.mk.injEq]
      exact ⟨by omega, trivial⟩

theorem load_fst (store items) : (load store items).1 = items.length := by
  cases items with
  | nil => rfl
  | cons a l => simp [load, load_pair, Nat.add_comm]

theorem load_snd (store items) : (load store items).2 = applyAll store items := by
  cases items with
  | nil => simp [load, applyAll]
  | cons a l => simp [load, load_pair, applyAll]

theorem findKey_cons (row : UnifiedItemCreate) (rest : List UnifiedItemCreate)
    (k : SourceType × String × String) :
    findKey (row :: rest) k
      = if itemKey row = k then some row else findKey rest k := by
  by_cases h : itemKey row = k
  · simp [findKey, List.find?_cons_of_pos, h]
  · simp [findKey, List.find?_cons_of_neg, h]

theorem upsert_item_key_mem (store : List UnifiedItemCreate)
    (it : UnifiedItemCreate) : itemKey it ∈ storeKeys (upsert_item store it) := by
  induction store with
  | nil => simp [upsert_item, storeKeys]
  | cons row rest ih =>
      by_cases h : itemKey row = itemKey it
      · simp [upsert_item, h, storeKeys]
      · simp only [upsert_item, if_neg h, storeKeys, List.map_cons, List.mem_cons]
        exact Or.inr ih

theorem storeKeys_upsert_of_mem (store : List UnifiedItemCreate)
    (it : UnifiedItemCreate) (h : itemKey it ∈ storeKeys store) :
    storeKeys (upsert_item store it) = storeKeys store := by
  induction store with
  | nil => simp [storeKeys] at h
  | cons row rest ih =>
      by_cases hk : itemKey row = itemKey it
      · simp [upsert_item, hk, storeKeys]
      · have h' : itemKey it ∈ storeKeys rest := by
          simp only [storeKeys, List.map_cons, List.mem_cons] at h
          rcases h with h | h
          · exact absurd h.symm hk
          · exact h
        simp only [upsert_item, if_neg hk, storeKeys, List.map_cons]
        exact congrArg (List.cons (itemKey row)) (ih h')

theorem storeKeys_upsert_of_not_mem (store : List UnifiedItemCreate)
    (it : UnifiedItemCreate) (h : itemKey it ∉ storeKeys store) :
    storeKeys (upsert_item store it) = storeKeys store ++ [itemKey it] := by
  induction store with
  | nil => simp [upsert_item, storeKeys]
  | cons row rest ih =>
      by_cases hk : itemKey row = itemKey it
      · exact absurd
          (by
            simp only [storeKeys, List.map_cons, List.mem_cons]
            exact Or.inl hk.symm) h
      · have h' : itemKey it ∉ storeKeys rest := by
          intro hm
          apply h
          simp only [storeKeys, List.map_cons, List.mem_cons]
          exact Or.inr hm
        simp only [upsert_item, if_neg hk, storeKeys, List.map_cons, List.cons_append,
          List.cons.injEq, true_and]
        exact ih h'

theorem mem_storeKeys_upsert (store : List UnifiedItemCreate)
    (it : UnifiedItemCreate) (k : SourceType × String × String)
    (h : k ∈ storeKeys store) : k ∈ storeKeys (upsert_item store it) := by
  by_cases hm : itemKey it ∈ storeKeys store
  · rw [storeKeys_upsert_of_mem store it hm]; exact h
  · rw [storeKeys_upsert_of_not_mem store it hm]; exact List.mem_append_left _ h

theorem findKey_upsert (store : List UnifiedItemCreate) (it : UnifiedItemCreate)
    (k : SourceType × String × String) :
    findKey (upsert_item store it) k
      = if itemKey it = k then some it else findKey store k := by
  induction store with
  | nil =>
      show findKey [it] k = _
      rw [findKey_cons]
  | cons row rest ih =>
      by_cases hk : itemKey row = itemKey it
      · simp only [upsert_item, if_pos hk]
        rw [findKey_cons, findKey_cons]
        by_cases h : itemKey it = k
        · simp [h]
        · have hrow : ¬ itemKey row = k := by rw [hk]; exact h
          simp [h, hrow]
      · simp only [upsert_item, if_neg hk]
        rw [findKey_cons, findKey_cons]
        by_cases hrow : itemKey row = k
        · have h : ¬ itemKey it = k := fun e => hk (hrow.trans e.symm)
          simp [hrow, h]
        · simp [hrow, ih]

theorem nodup_upsert (store : List UnifiedItemCreate) (it : UnifiedItemCreate)
    (h : (storeKeys store).Nodup) : (storeKeys (upsert_item store it)).Nodup := by
  by_cases hm : itemKey it ∈ storeKeys store
  · rw [storeKeys_upsert_of_mem store it hm]; exact h
  · rw [storeKeys_upsert_of_not_mem store it hm]
    rw [List.nodup_append]
    refine ⟨h, List.nodup_singleton _, ?_⟩
    intro a ha hb
    simp only [List.mem_singleton] at hb
    subst hb
    exact hm ha

theorem mem_storeKeys_applyAll_of_mem (items : List UnifiedItemCreate)
    (k : SourceType × String × String) :
    ∀ store, k ∈ storeKeys store → k ∈ storeKeys (applyAll store items) := by
  induction items with
  | nil => intro store h; exact h
  | cons a l ih =>
      intro store h
      show k ∈ storeKeys (applyAll (upsert_item store a) l)
      exact ih _ (mem_storeKeys_upsert store a k h)

theorem mem_storeKeys_applyAll (items : List UnifiedItemCreate)
    (it : UnifiedItemCreate) (h : it ∈ items) :
    ∀ store, itemKey it ∈ storeKeys (applyAll store items) := by
  induction items with
  | nil => cases h
  | cons a l ih =>
      intro store
      rcases List.mem_cons.mp h with h | h
      · subst h
        show itemKey it ∈ storeKeys (applyAll (upsert_item store it) l)
        exact mem_storeKeys_applyAll_of_mem l _ _ (upsert_item_key_mem store it)
      · exact ih h _

theorem storeKeys_applyAll_stable (items : List UnifiedItemCreate) :
    ∀ store, (∀ it ∈ items, itemKey it ∈ storeKeys store) →
      storeKeys (applyAll store items) = storeKeys store := by
  induction items with
  | nil => intro store _; rfl
  | cons a l ih =>
      intro store h
      show storeKeys (applyAll (upsert_item store a) l) = storeKeys store
      have ha : itemKey a ∈ storeKeys store := h a (List.mem_cons_self a l)
      have hkeys : storeKeys (upsert_item store a) = storeKeys store :=
        storeKeys_upsert_of_mem store a ha
      rw [ih (upsert_item store a) (fun it hit => by
        rw [hkeys]; exact h it (List.mem_cons_of_mem a hit)), hkeys]

theorem lastWrite_foldl_init (k : SourceType × String × String)
    (items : List UnifiedItemCreate) :
    ∀ init, items.foldl (fun acc it => if itemKey it = k then some it else acc) init
      = match lastWrite items k with
        | some v => some v
        | none => init := by
  induction items with
  | nil => intro init; simp [lastWrite]
  | cons b l ih =>
      intro init
      show l.foldl _ (if itemKey b = k then some b else init) = _
      rw [ih]
      have hl : lastWrite (b :: l) k
          = match lastWrite l k with
            | some v => some v
            | none => if itemKey b = k then some b else none := by
        show l.foldl _ (if itemKey b = k then some b else none) = _
        rw [ih]
      rw [hl]
      rcases hcase : lastWrite l k with _ | v
      · by_cases hb : itemKey b = k <;> simp [hb]
      · rfl

theorem findKey_applyAll (items : List UnifiedItemCreate)
    (k : SourceType × String × String) :
    ∀ store, findKey (applyAll store items) k
      = match lastWrite items k with
        | some v => some v
        | none => findKey store k := by
  induction items with
  | nil => intro store; simp [applyAll, lastWrite]
  | cons a l ih =>
      intro store
      show findKey (applyAll (upsert_item store a) l) k = _
      rw [ih]
      have hl : lastWrite (a :: l) k
          = match lastWrite l k with
            | some v => some v
            | none => if itemKey a = k then some a else none := by
        show l.foldl _ (if itemKey a = k then some a else none) = _
        rw [lastWrite_foldl_init]
      rw [hl, findKey_upsert]
      rcases hcase : lastWrite l k with _ | v
      · by_cases hb : itemKey a = k <;> simp [hb]
      · rfl

theorem nodup_applyAll (items : List UnifiedItemCreate) :
    ∀ store, (storeKeys store).Nodup → (storeKeys (applyAll store items)).Nodup := by
  induction items with
  | nil => intro store h; exact h
  | cons a l ih =>
      intro store h
      show (storeKeys (applyAll (upsert_item store a) l)).Nodup
      exact ih _ (nodup_upsert store a h)

theorem findKey_eq_none_of_not_mem (store : List UnifiedItemCreate)
    (k : SourceType × String × String) (h : k ∉ storeKeys store) :
    findKey store k = none := by
  induction store with
  | nil => rfl
  | cons row rest ih =>
      rw [findKey_cons]
      have hrow : ¬ itemKey row = k := by
        intro e
        exact h (by simp only [storeKeys, List.map_cons, List.mem_cons]; exact Or.inl e.symm)
      rw [if_neg hrow]
      exact ih (fun hm => h (by
        simp only [storeKeys, List.map_cons, List.mem_cons]
        exact Or.inr hm))

theorem store_ext (s : List UnifiedItemCreate) :
    ∀ t, (storeKeys s).Nodup → (storeKeys t).Nodup → storeKeys s = storeKeys t →
      (∀ k, findKey s k = findKey t k) → s = t := by
  induction s with
  | nil =>
      intro t _ _ hk _
      cases t with
      | nil => rfl
      | cons b t' => simp [storeKeys] at hk
  | cons a s' ih =>
      intro t hs ht hk hf
      cases t with
      | nil => simp [storeKeys] at hk
      | cons b t' =>
          simp only [storeKeys, List.map_cons, List.cons.injEq] at hk
          obtain ⟨hkey, hkeys⟩ := hk
          have hab : a = b := by
            have := hf (itemKey a)
            rw [findKey_cons, findKey_cons, if_pos rfl, if_pos hkey.symm] at this
            exact Option.some.inj this
          subst hab
          simp only [storeKeys, List.map_cons, List.nodup_cons] at hs ht
          have htail : ∀ k, findKey s' k = findKey t' k := by
            intro k
            by_cases hka : itemKey a = k
            · subst hka
              rw [findKey_eq_none_of_not_mem s' _ hs.1,
                 findKey_eq_none_of_not_mem t' _ ht.1]
            · have := hf k
              rw [findKey_cons, findKey_cons, if_neg hka, if_neg hka] at this
              exact this
          rw [ih t' hs.2 ht.2 hkeys htail]

theorem applyAll_idem (store items : List UnifiedItemCreate)
    (h : (storeKeys store).Nodup) :
    applyAll (applyAll store items) items = applyAll store items := by
  have hA : (storeKeys (applyAll store items)).Nodup := nodup_applyAll items store h
  apply store_ext
  · exact nodup_applyAll items _ hA
  · exact hA
  · exact storeKeys_applyAll_stable items (applyAll store items)
      (fun it hit => mem_storeKeys_applyAll items it hit store)
  · intro k
    rw [findKey_applyAll items k (applyAll store items)]
    rcases hcase : lastWrite items k with _ | v
    · rfl
    · rw [findKey_applyAll items k store, hcase]

/-- Claim C3: for every list of normalized items I and every unified store
whose rows carry distinct natural keys, running the loader upsert of I
twice in sequence leaves the store in exactly the same state as running it
once, and the store after one run still has no duplicate rows for any
(source kind, source name, external id) key - row for row, field for
field, the two final stores are equal. -/
theorem C3_upsert_idempotent (store items : List UnifiedItemCreate)
    (h : (storeKeys store).Nodup) :
    (load (load store items).2 items).2 = (load store items).2
    ∧ (storeKeys (load store items).2).Nodup := by
  rw [load_snd, load_snd]
  exact ⟨applyAll_idem store items h, nodup_applyAll items store h⟩

/-- Witness for claim C3 at a concrete store and batch (the batch writes
external id 1 twice with different amounts). -/
theorem C3_upsert_idempotent_witness :
    (storeKeys ([] : List UnifiedItemCreate)).Nodup
    ∧ ((load (load ([] : List UnifiedItemCreate) c3Items).2 c3Items).2
        = (load ([] : List UnifiedItemCreate) c3Items).2
      ∧ (storeKeys (load ([] : List UnifiedItemCreate) c3Items).2).Nodup) :=
  ⟨by decide, C3_upsert_idempotent [] c3Items (by decide)⟩

/-- Claim C10: the loader returns a loaded count equal to the length of the
(non-empty) input batch - loaded_count is incremented once per item whether
the upsert inserted or updated - so an immediate repeat load of the same
batch reports the same count. -/
theorem C10_load_count (store items : List UnifiedItemCreate)
    (_h : items ≠ []) :
    (load store items).1 = items.length
    ∧ (load (load store items).2 items).1 = items.length :=
  ⟨load_fst store items, load_fst (load store items).2 items⟩

/-- Witness for claim C10 at a concrete store and batch: both the first and
the repeat load of three items (two sharing a key) report count 3. -/
theorem C10_load_count_witness :
    c10Items ≠ []
    ∧ ((load ([] : List UnifiedItemCreate) c10Items).1 = c10Items.length
      ∧ (load (load ([] : List UnifiedItemCreate) c10Items).2 c10Items).1
          = c10Items.length) :=
  ⟨by decide, C10_load_count [] c10Items (by decide)⟩

/-- Claim C5: after five consecutive request failures (the default circuit
breaker threshold) the breaker is open until failure instant plus the
60-second cooldown; a request attempt before that instant is short-circuited
at the gate with no network call, and an attempt at or after it passes the
gate (the network is reached again) with the failure tally cleared. -/
theorem C5_circuit_breaker_trip_and_reset (t now1 now2 : Int)
    (h1 : now1 < t + circuitBreakerTimeout)
    (h2 : t + circuitBreakerTimeout ≤ now2) :
    (iterFailures circuitBreakerThreshold ⟨0, none⟩ t).openUntil
        = some (t + circuitBreakerTimeout)
    ∧ (requestGate (iterFailures circuitBreakerThreshold ⟨0, none⟩ t) now1).1
        = GateResult.shortCircuited
    ∧ (requestGate (iterFailures circuitBreakerThreshold ⟨0, none⟩ t) now2).1
        = GateResult.networkAttempted
    ∧ (requestGate (iterFailures circuitBreakerThreshold ⟨0, none⟩ t) now2).2
        = ⟨0, none⟩ := by
  have hst : iterFailures circuitBreakerThreshold ⟨0, none⟩ t
      = ⟨5, some (t + circuitBreakerTimeout)⟩ := rfl
  rw [hst]
  have hn1 : ¬ (t + circuitBreakerTimeout ≤ now1) := by omega
  refine ⟨rfl, ?_, ?_, ?_⟩
  · simp [requestGate, _is_circuit_open, hn1]
  · simp [requestGate, _is_circuit_open, h2]
  · simp [requestGate, _is_circuit_open, h2]

/-- Witness for claim C5: failures at instant 0, a blocked attempt at 59,
an allowed attempt at 60 with the tally cleared. -/
theorem C5_circuit_breaker_trip_and_reset_witness :
    ((59 : Int) < 0 + circuitBreakerTimeout)
    ∧ ((0 : Int) + circuitBreakerTimeout ≤ 60)
    ∧ ((iterFailures circuitBreakerThreshold ⟨0, none⟩ 0).openUntil
          = some (0 + circuitBreakerTimeout)
      ∧ (requestGate (iterFailures circuitBreakerThreshold ⟨0, none⟩ 0) 59).1
          = GateResult.shortCircuited
      ∧ (requestGate (iterFailures circuitBreakerThreshold ⟨0, none⟩ 0) 60).1
          = GateResult.networkAttempted
      ∧ (requestGate (iterFailures circuitBreakerThreshold ⟨0, none⟩ 0) 60).2
          = ⟨0, none⟩) :=
  ⟨by decide, by decide,
   C5_circuit_breaker_trip_and_reset 0 59 60 (by decide) (by decide)⟩

theorem retryGo_all_fail (api_url source_name : String) (retry_delay : Int)
    (respond : Nat → HttpOutcome) :
    ∀ (r a : Nat) (acc : List Int), 0 < r →
      (∀ i, a ≤ i → i < a + r → retryableOutcome (respond i)) →
      retryGo api_url source_name retry_delay respond a r acc
        = (RequestResult.networkError
            { api_url := api_url, source_name := source_name,
              retry_count := a + r,
              response_body := truncatedBody (respond (a + r - 1)) },
           acc ++ (List.range' a (r - 1)).map (fun i => retry_delay * 2 ^ i)) := by
  intro r
  induction r with
  | zero => intro a acc h _; omega
  | succ r' ih =>
      intro a acc _ hfail
      have hme : retryableOutcome (respond a) := hfail a (Nat.le_refl a) (by omega)
      have harith1 : a + (r' + 1) = a + 1 + r' := by omega
      have harith2 : a + (r' + 1) - 1 = a + 1 + r' - 1 := by omega
      cases houtcome : respond a with
      | ok => rw [houtcome] at hme; simp only [retryableOutcome] at hme
      | rateLimited hdr body =>
          rw [houtcome] at hme; simp only [retryableOutcome] at hme
      | status code body =>
          rw [houtcome] at hme; simp only [retryableOutcome] at hme
          have hne1 : ¬ (code = 401 ∨ code = 403) := by omega
          have hne4 : ¬ code = 404 := by omega
          simp only [retryGo, houtcome]
          rw [if_neg hne1, if_neg hne4, if_pos hme]
          rcases r'.eq_zero_or_pos with hr0 | hrpos
          · subst hr0
            rw [if_pos rfl]
            have hresp : respond (a + (0 + 1) - 1) = HttpOutcome.status code body := by
              have : a + (0 + 1) - 1 = a := by omega
              rw [this, houtcome]
            rw [hresp]
            simp [truncatedBody]
          · have hr0 : ¬ r' = 0 := by omega
            rw [if_neg hr0]
            rw [ih (a + 1) (acc ++ [retry_delay * 2 ^ a]) hrpos
              (fun i h1 h2 => hfail i (by omega) (by omega))]
            rw [← harith1]
            have hrange : List.range' a (r' + 1 - 1)
                = a :: List.range' (a + 1) (r' - 1) := by
              have h1 : r' + 1 - 1 = (r' - 1) + 1 := by omega
              rw [h1, List.range'_succ]
            rw [hrange]
            simp [List.append_assoc]
      | timeout =>
          simp only [retryGo, houtcome]
          rcases r'.eq_zero_or_pos with hr0 | hrpos
          · subst hr0
            rw [if_pos rfl]
            have hresp : respond (a + (0 + 1) - 1) = HttpOutcome.timeout := by
              have : a + (0 + 1) - 1 = a := by omega
              rw [this, houtcome]
            rw [hresp]
            simp [truncatedBody]
          · have hr0 : ¬ r' = 0 := by omega
            rw [if_neg hr0]
            rw [ih (a + 1) (acc ++ [retry_delay * 2 ^ a]) hrpos
              (fun i h1 h2 => hfail i (by omega) (by omega))]
            rw [← harith1]
            have hrange : List.range' a (r' + 1 - 1)
                = a :: List.range' (a + 1) (r' - 1) := by
              have h1 : r' + 1 - 1 = (r' - 1) + 1 := by omega
              rw [h1, List.range'_succ]
            rw [hrange]
            simp [List.append_assoc]
      | connectFail =>
          simp only [retryGo, houtcome]
          rcases r'.eq_zero_or_pos with hr0 | hrpos
          · subst hr0
            rw [if_pos rfl]
            have hresp : respond (a + (0 + 1) - 1) = HttpOutcome.connectFail := by
              have : a + (0 + 1) - 1 = a := by omega
              rw [this, houtcome]
            rw [hresp]
            simp [truncatedBody]
          · have hr0 : ¬ r' = 0 := by omega
            rw [if_neg hr0]
            rw [ih (a + 1) (acc ++ [retry_delay * 2 ^ a]) hrpos
              (fun i h1 h2 => hfail i (by omega) (by omega))]
            rw [← harith1]
            have hrange : List.range' a (r' + 1 - 1)
                = a :: List.range' (a + 1) (r' - 1) := by
              have h1 : r' + 1 - 1 = (r' - 1) + 1 := by omega
              rw [h1, List.range'_succ]
            rw [hrange]
            simp [List.append_assoc]

/-- Claim C8: when every attempt observes a transport timeout, a connection
failure or an HTTP 5xx, the client retries up to max_retries attempts
(default 3), sleeping retry_delay * 2 ^ attempt (default base 1 second)
between consecutive attempts, and on exhaustion raises a retryable
NetworkError whose context carries the url, the source name and the attempt
count, plus the response body truncated to 500 characters when the final
attempt was a 5xx. -/
theorem C8_retry_exhaustion (api_url source_name : String) (max_retries : Nat)
    (retry_delay : Int) (respond : Nat → HttpOutcome)
    (hpos : 0 < max_retries)
    (hfail : ∀ i, i < max_retries → retryableOutcome (respond i)) :
    _make_request_with_retry api_url source_name max_retries retry_delay respond
      = (RequestResult.networkError
          { api_url := api_url, source_name := source_name,
            retry_count := max_retries,
            response_body := truncatedBody (respond (max_retries - 1)) },
         (List.range (max_retries - 1)).map (fun i => retry_delay * 2 ^ i)) := by
  have h := retryGo_all_fail api_url source_name retry_delay respond
    max_retries 0 [] hpos (fun i _ h2 => hfail i (by omega))
  show retryGo api_url source_name retry_delay respond 0 max_retries [] = _
  rw [h]
  simp [List.range_eq_range']

/-- Witness for claim C8: three attempts all answered HTTP 503 yield a
NetworkError carrying the url, source, attempt count 3 and the truncated
body, after sleeping 1 and 2 seconds. -/
theorem C8_retry_exhaustion_witness :
    _make_request_with_retry "https://api.example.com/data" "test_api" 3 1 c8_respond
      = (RequestResult.networkError
          { api_url := "https://api.example.com/data", source_name := "test_api",
            retry_count := 3,
            response_body := some "Service Unavailable" },
         [1, 2]) := by
  have h := C8_retry_exhaustion "https://api.example.com/data" "test_api" 3 1
    c8_respond (by omega) (fun i _ => by simp [c8_respond, retryableOutcome])
  rw [h]
  decide

/-- Claim C1 is violated by the code: a run whose loader is forced to fail
(after one record with timestamp 5 was extracted against watermark 0) ends
with the propagated load error, yet the checkpoint watermark has moved from
0 to 5 and even reads status SUCCESS - run_incremental committed the
advanced checkpoint during the extraction phase, before the load phase ran,
and the failure handler never restores it.  The repository test
test_etl_failure_recovery_resume asserts the opposite (watermark unchanged,
status FAILED), so the code contradicts its own test. -/
theorem C1_watermark_advances_on_load_failure :
    (runner_run c1_state0 "recovery_test_api" CheckpointType.timestamp c1_fetch 9 true).2.status
        = "failed"
    ∧ ((runner_run c1_state0 "recovery_test_api" CheckpointType.timestamp c1_fetch 9 true).1.checkpoint.map
        Checkpoint.checkpoint_value) = some "5"
    ∧ c1_state0.checkpoint.map Checkpoint.checkpoint_value = some "0"
    ∧ ((runner_run c1_state0 "recovery_test_api" CheckpointType.timestamp c1_fetch 9 true).1.checkpoint.map
        Checkpoint.status) = some ETLStatus.success := by
  decide

/-- Claim C2 is violated by the code: run 1 (forced loader failure) leaves
two raw records unprocessed but has already advanced the checkpoint, so
run 2 against a watermark-honoring source with no new upstream data
extracts zero records and short-circuits - the two previously-unprocessed
raw records are never loaded and the unified store stays empty instead of
holding one row per distinct external id. -/
theorem C2_unprocessed_records_stranded_after_failed_run :
    (runner_run c2_state0 "recovery_test_api" CheckpointType.timestamp c2_fetch 9 true).2.status
        = "failed"
    ∧ (c2_state1.raws.filter (fun r => !r.processed)).length = 2
    ∧ c2_state1.store = []
    ∧ c2_run2.2.records_extracted = 0
    ∧ c2_run2.2.records_loaded = 0
    ∧ c2_run2.1.store = []
    ∧ (c2_run2.1.raws.filter (fun r => !r.processed)).length = 2 := by
  decide

/-- Claim C6 is violated by the code: when no extracted payload yields a
timestamp, the recorded watermark is datetime.utcnow().isoformat() - it
varies with the wall clock over identical extracted payloads, so it cannot
equal any maximum over the payloads. -/
theorem C6_watermark_falls_back_to_clock :
    extract_timestamp c6_record = none
    ∧ _calculate_checkpoint CheckpointType.timestamp [c6_record] 42 = "42"
    ∧ _calculate_checkpoint CheckpointType.timestamp [c6_record] 43 = "43"
    ∧ _calculate_checkpoint CheckpointType.timestamp [c6_record] 42
        ≠ _calculate_checkpoint CheckpointType.timestamp [c6_record] 43 := by
  decide

/-- Claim C6 (amended): for a timestamp checkpoint the new watermark equals
the maximum timestamp among the extracted payloads that yield one, provided
at least one does; for an id checkpoint it equals the maximum id string,
provided at least one record was extracted; in every remaining case it is
the current instant. -/
theorem C6_watermark_is_max_of_extracted (records : List Payload) (now : Int) :
    (∀ m, (records.filterMap extract_timestamp).max? = some m →
      _calculate_checkpoint CheckpointType.timestamp records now = toString m)
    ∧ (∀ m, pyMax (records.map extract_record_id) = some m →
      _calculate_checkpoint CheckpointType.id records now = m) := by
  constructor
  · intro m hm; simp [_calculate_checkpoint, hm]
  · intro m hm; simp [_calculate_checkpoint, hm]

/-- Witness for the amended claim C6 at two concrete records with
timestamps 5 and 7 and ids a1 and b2. -/
theorem C6_watermark_is_max_of_extracted_witness :
    (([c6w_rec1, c6w_rec2].filterMap extract_timestamp).max? = some 7
      ∧ _calculate_checkpoint CheckpointType.timestamp [c6w_rec1, c6w_rec2] 99 = "7")
    ∧ (pyMax ([c6w_rec1, c6w_rec2].map extract_record_id) = some "b2"
      ∧ _calculate_checkpoint CheckpointType.id [c6w_rec1, c6w_rec2] 99 = "b2") :=
  ⟨⟨by decide, (C6_watermark_is_max_of_extracted [c6w_rec1, c6w_rec2] 99).1 7 (by decide)⟩,
   ⟨by decide, (C6_watermark_is_max_of_extracted [c6w_rec1, c6w_rec2] 99).2 "b2" (by decide)⟩⟩

/-- Claim C7 is violated by the code: the record of the repository test
test_transformation_failure_partial_success that has no name or title key
normalizes successfully with the literal default title Untitled (its
unparseable price coerces to an absent amount), instead of being a hard
validation failure as the claim and that test require.  A present title
that is blank after stripping does fail, per the claim. -/
theorem C7_missing_title_defaults_to_untitled :
    ((_normalize_api "partial_failure_api" c7_missing_title 1).toOption.map
        UnifiedItemCreate.title) = some "Untitled"
    ∧ ((_normalize_api "partial_failure_api" c7_missing_title 1).toOption.map
        UnifiedItemCreate.amount) = some none
    ∧ (_normalize_api "partial_failure_api" c7_blank_title 2).toOption = none
    ∧ ((_normalize_api "partial_failure_api" c7_good 3).toOption.map
        UnifiedItemCreate.title) = some "Valid Product" := by
  decide

/-- Claim C9 is violated by the code on every run that extracts records:
exactly one Run record is created, but its terminal fields are written
twice - once by run_incremental when the extraction phase ends and again by
the runner at run end - so it is not finalized exactly once. -/
theorem C9_run_finalized_twice :
    ((runner_run c9_state0 "api" CheckpointType.timestamp c9_fetch 9 false).1.runs.length = 1)
    ∧ (((runner_run c9_state0 "api" CheckpointType.timestamp c9_fetch 9 false).1.runs.head?).map
        RunRecord.finalize_count) = some 2 := by
  decide

theorem complete_runs_length (st : PipelineState) (status e l f ck err) :
    (complete_etl_run st status e l f ck err).runs.length = st.runs.length := by
  unfold complete_etl_run
  cases h : st.runs <;> simp [h]

theorem complete_headfin_of (st : PipelineState) (status e l f ck err) (c : Nat)
    (h : (st.runs.head?).map RunRecord.finalize_count = some c) :
    ((complete_etl_run st status e l f ck err).runs.head?).map RunRecord.finalize_count
      = some (c + 1) := by
  unfold complete_etl_run
  cases hr : st.runs with
  | nil => rw [hr] at h; simp at h
  | cons r rest =>
      rw [hr] at h
      simp only [List.head?_cons, Option.map_some] at h
      simp only [List.head?_cons, Option.map_some]
      rw [Option.some.inj h]
      rfl

theorem cou_runs (st : PipelineState) (v s rp e) :
    (create_or_update_checkpoint st v s rp e).runs = st.runs := by
  unfold create_or_update_checkpoint
  cases h : st.checkpoint <;> simp [h]

/-- Claim C9 (amended): every orchestrator invocation creates exactly one
Run record; a zero-extraction run finalizes it exactly once, while a run
that extracts records writes its terminal fields twice - once by
run_incremental at the end of the extraction phase (always SUCCESS with
loaded = extracted) and once at run end with the authoritative final
status and counts - whether or not the load phase fails. -/
theorem C9_run_record_lifecycle (st0 : PipelineState) (source_name : String)
    (ckType : CheckpointType) (records : List Payload) (now : Int)
    (loaderFails : Bool) :
    ((runner_run st0 source_name ckType (fun _ => records) now loaderFails).1.runs.length
        = st0.runs.length + 1)
    ∧ (((runner_run st0 source_name ckType (fun _ => records) now loaderFails).1.runs.head?).map
        RunRecord.finalize_count = some (if records = [] then 1 else 2)) := by
  unfold runner_run run_incremental
  dsimp only
  cases records with
  | nil =>
      simp only [List.length_nil, if_pos rfl, reduceIte]
      constructor
      · rw [cou_runs, complete_runs_length]
        simp [start_etl_run]
      · rw [cou_runs]
        exact complete_headfin_of _ _ _ _ _ _ _ 0 rfl
  | cons p ps =>
      simp only [List.length_cons, Nat.succ_ne_zero, if_false, reduceIte,
        if_neg (List.cons_ne_nil p ps)]
      constructor
      · split
        · simp only [complete_runs_length, cou_runs]
          simp [save_raw_data, start_etl_run]
        · simp only [complete_runs_length, cou_runs]
          simp [save_raw_data, start_etl_run]
      · split
        · refine complete_headfin_of _ _ _ _ _ _ _ 1 ?_
          simp only [cou_runs]
          exact complete_headfin_of _ _ _ _ _ _ _ 0 rfl
        · refine complete_headfin_of _ _ _ _ _ _ _ 1 ?_
          simp only [cou_runs]
          exact complete_headfin_of _ _ _ _ _ _ _ 0 rfl

theorem normalize_isSome_id (s : String) (p : Payload) (i : Nat) :
    (_normalize_api s p i).toOption.isSome = normOk s p := by
  unfold normOk _normalize_api
  cases _normalize_api_core s p <;> rfl

theorem mkRawRows_length (s : String) (nid : Nat) (ps : List Payload) :
    (mkRawRows s nid ps).length = ps.length := by
  induction ps generalizing nid with
  | nil => rfl
  | cons p ps ih => simp [mkRawRows, ih]

theorem mkRawRows_mem_id_bounds (s : String) (ps : List Payload) :
    ∀ nid r, r ∈ mkRawRows s nid ps → nid ≤ r.id ∧ r.id < nid + ps.length := by
  induction ps with
  | nil => intro nid r h; cases h
  | cons p ps ih =>
      intro nid r h
      rcases List.mem_cons.mp h with h | h
      · subst h
        exact ⟨Nat.le_refl _, by simp only [List.length_cons]; omega⟩
      · have := ih (nid + 1) r h
        simp only [List.length_cons]
        omega

theorem mkRawRows_fields (s : String) (ps : List Payload) :
    ∀ nid r, r ∈ mkRawRows s nid ps →
      r.source_type = SourceType.api ∧ r.source_name = s ∧ r.processed = false := by
  induction ps with
  | nil => intro nid r h; cases h
  | cons p ps ih =>
      intro nid r h
      rcases List.mem_cons.mp h with h | h
      · subst h; exact ⟨rfl, rfl, rfl⟩
      · exact ih (nid + 1) r h

theorem mkRawRows_filter_source (s : String) (ps : List Payload) (nid : Nat) :
    (mkRawRows s nid ps).filter (fun r =>
        r.source_type == SourceType.api && r.source_name == s
          && r.processed == false)
      = mkRawRows s nid ps := by
  rw [List.filter_eq_self]
  intro r hr
  obtain ⟨h1, h2, h3⟩ := mkRawRows_fields s ps nid r hr
  simp [h1, h2, h3]

theorem failedIds_mkRawRows_length (s : String) (ps : List Payload) :
    ∀ nid, (failedIdsOf s (mkRawRows s nid ps)).length
      = (ps.filter (fun p => !(normOk s p))).length := by
  induction ps with
  | nil => intro nid; rfl
  | cons p ps ih =>
      intro nid
      simp only [mkRawRows]
      unfold failedIdsOf
      rw [List.filterMap_cons]
      dsimp only
      cases hc : _normalize_api_core s p with
      | error e =>
          have hok : normOk s p = false := by
            unfold normOk _normalize_api; rw [hc]; rfl
          have hm : _normalize_api s p nid = Except.error e := by
            unfold _normalize_api; rw [hc]; rfl
          simp only [hm, Except.toOption, List.filter_cons, hok, Bool.not_false,
            Bool.not_true, Bool.false_eq_true, Bool.true_eq_false, reduceIte,
            List.length_cons, if_true, if_false]
          rw [← ih (nid + 1)]
          rfl
      | ok mk =>
          have hok : normOk s p = true := by
            unfold normOk _normalize_api; rw [hc]; rfl
          have hm : _normalize_api s p nid = Except.ok (mk nid) := by
            unfold _normalize_api; rw [hc]; rfl
          simp only [hm, Except.toOption, List.filter_cons, hok, Bool.not_false,
            Bool.not_true, Bool.false_eq_true, Bool.true_eq_false, reduceIte,
            List.length_cons, if_true, if_false]
          rw [← ih (nid + 1)]
          rfl

theorem normalized_mkRawRows_length (s : String) (ps : List Payload) :
    ∀ nid, (normalizedOf s (mkRawRows s nid ps)).length
      = (ps.filter (fun p => normOk s p)).length := by
  induction ps with
  | nil => intro nid; rfl
  | cons p ps ih =>
      intro nid
      simp only [mkRawRows]
      unfold normalizedOf
      rw [List.filterMap_cons]
      dsimp only
      cases hc : _normalize_api_core s p with
      | error e =>
          have hok : normOk s p = false := by
            unfold normOk _normalize_api; rw [hc]; rfl
          have hm : _normalize_api s p nid = Except.error e := by
            unfold _normalize_api; rw [hc]; rfl
          simp only [hm, Except.toOption, List.filter_cons, hok, Bool.not_false,
            Bool.not_true, Bool.false_eq_true, Bool.true_eq_false, reduceIte,
            List.length_cons, if_true, if_false]
          rw [← ih (nid + 1)]
          rfl
      | ok mk =>
          have hok : normOk s p = true := by
            unfold normOk _normalize_api; rw [hc]; rfl
          have hm : _normalize_api s p nid = Except.ok (mk nid) := by
            unfold _normalize_api; rw [hc]; rfl
          simp only [hm, Except.toOption, List.filter_cons, hok, Bool.not_false,
            Bool.not_true, Bool.false_eq_true, Bool.true_eq_false, reduceIte,
            List.length_cons, if_true, if_false]
          rw [← ih (nid + 1)]
          rfl

theorem filter_not_length (l : List Payload) (p : Payload → Bool) :
    (l.filter p).length + (l.filter (fun x => !(p x))).length = l.length := by
  induction l with
  | nil => rfl
  | cons a l ih =>
      by_cases h : p a = true
      · simp [List.filter_cons, h, ih]; omega
      · have h' : p a = false := by revert h; cases p a <;> simp
        simp [List.filter_cons, h', ih]; omega

theorem mem_failedIdsOf (s : String) (rows : List RawRow) (x : Nat) :
    x ∈ failedIdsOf s rows ↔ ∃ r ∈ rows, r.id = x ∧ normOk s r.payload = false := by
  unfold failedIdsOf
  rw [List.mem_filterMap]
  constructor
  · rintro ⟨r, hr, hf⟩
    cases hc : _normalize_api s r.payload r.id with
    | error e =>
        rw [hc] at hf
        refine ⟨r, hr, Option.some.inj hf, ?_⟩
        have := normalize_isSome_id s r.payload r.id
        rw [hc] at this
        exact this.symm
    | ok it => rw [hc] at hf; cases hf
  · rintro ⟨r, hr, hid, hok⟩
    refine ⟨r, hr, ?_⟩
    cases hc : _normalize_api s r.payload r.id with
    | error e => rw [hid]
    | ok it =>
        have := normalize_isSome_id s r.payload r.id
        rw [hc, hok] at this
        cases this

theorem mem_markIdsOf (s : String) (rows : List RawRow) (x : Nat) :
    x ∈ markIdsOf s rows ↔ ∃ r ∈ rows, r.id = x ∧ x ∉ failedIdsOf s rows := by
  unfold markIdsOf
  rw [List.mem_filterMap]
  constructor
  · rintro ⟨r, hr, hf⟩
    by_cases hi : r.id ∈ failedIdsOf s rows
    · rw [if_pos hi] at hf; cases hf
    · rw [if_neg hi] at hf
      have hx := Option.some.inj hf
      exact ⟨r, hr, hx, hx ▸ hi⟩
  · rintro ⟨r, hr, hid, hni⟩
    refine ⟨r, hr, ?_⟩
    rw [if_neg (hid ▸ hni), hid]

theorem mem_markIds_iff (s : String) (rows : List RawRow) (r : RawRow)
    (hr : r ∈ rows) :
    r.id ∈ markIdsOf s rows ↔ r.id ∉ failedIdsOf s rows := by
  rw [mem_markIdsOf]
  constructor
  · rintro ⟨r', _, _, h⟩; exact h
  · intro h; exact ⟨r, hr, rfl, h⟩

theorem mkRawRows_id_inj (s : String) (ps : List Payload) :
    ∀ nid (r r' : RawRow), r ∈ mkRawRows s nid ps → r' ∈ mkRawRows s nid ps →
      r.id = r'.id → r = r' := by
  induction ps with
  | nil => intro nid r r' h; cases h
  | cons p ps ih =>
      intro nid r r' hr hr' he
      rcases List.mem_cons.mp hr with h1 | h1 <;> rcases List.mem_cons.mp hr' with h2 | h2
      · rw [h1, h2]
      · subst h1
        have hb := (mkRawRows_mem_id_bounds s ps (nid + 1) r' h2).1
        have he' : nid = r'.id := he
        omega
      · subst h2
        have hb := (mkRawRows_mem_id_bounds s ps (nid + 1) r h1).1
        have he' : r.id = nid := he
        omega
      · exact ih (nid + 1) r r' h1 h2 he

theorem mem_failed_mkRawRows_iff (s : String) (ps : List Payload) (nid : Nat)
    (r : RawRow) (hr : r ∈ mkRawRows s nid ps) :
    r.id ∈ failedIdsOf s (mkRawRows s nid ps) ↔ normOk s r.payload = false := by
  rw [mem_failedIdsOf]
  constructor
  · rintro ⟨r', hr', hid, hok⟩
    rw [mkRawRows_id_inj s ps nid r' r hr' hr hid] at hok
    exact hok
  · intro h; exact ⟨r, hr, rfl, h⟩

theorem complete_raws (st : PipelineState) (status e l f ck err) :
    (complete_etl_run st status e l f ck err).raws = st.raws := by
  unfold complete_etl_run
  cases h : st.runs <;> simp [h]

theorem cou_raws (st : PipelineState) (v s2 rp em) :
    (create_or_update_checkpoint st v s2 rp em).raws = st.raws := by
  unfold create_or_update_checkpoint
  cases h : st.checkpoint <;> simp [h]

theorem mkRawRows_filter_payload_length (s : String) (ps : List Payload)
    (q : Payload → Bool) :
    ∀ nid, ((mkRawRows s nid ps).filter (fun r => q r.payload)).length
      = (ps.filter q).length := by
  induction ps with
  | nil => intro _; rfl
  | cons p ps ih =>
      intro nid
      simp only [mkRawRows, List.filter_cons]
      dsimp only
      cases hq : q p <;> simp [hq, ih (nid + 1)]


/-- Claim C4 is violated by the code as universally stated: the phase-2
sweep re-reads every unprocessed raw record of the source, so a run that
extracts one record of which zero fail normalization still reports
records_failed = 1 when a failing record was left unprocessed by an
earlier run.  (The sweep is the intended resume behaviour; the claim holds
only from a clean state, as amended.) -/
theorem C4_leftover_rows_inflate_failed_count :
    normOk "api" c4_good = true
    ∧ (runner_run c4_state0 "api" CheckpointType.timestamp c4_fetch 9 false).2.records_extracted = 1
    ∧ (runner_run c4_state0 "api" CheckpointType.timestamp c4_fetch 9 false).2.records_failed = 1 := by
  decide

/-- Claim C4 (amended): for a run over a source with no leftover
unprocessed raw records, whose extraction returns at least one and at most
1000 records (the sweep cap) of which K fail normalization, with no other
phase failing, the run reports records_extracted = N, records_failed = K
and records_loaded = N - K, and afterwards each raw record of the run is
processed exactly when its payload normalized - the K failing ones remain
processed = false. -/
theorem C4_partial_failure_accounting (st0 : PipelineState) (source_name : String)
    (ckType : CheckpointType) (records : List Payload) (now : Int)
    (hraws : st0.raws = []) (hne : records ≠ []) (hcap : records.length ≤ 1000) :
    (runner_run st0 source_name ckType (fun _ => records) now false).2.records_extracted
        = records.length
    ∧ (runner_run st0 source_name ckType (fun _ => records) now false).2.records_failed
        = (records.filter (fun p => !(normOk source_name p))).length
    ∧ (runner_run st0 source_name ckType (fun _ => records) now false).2.records_loaded
        = records.length - (records.filter (fun p => !(normOk source_name p))).length
    ∧ (∀ r ∈ (runner_run st0 source_name ckType (fun _ => records) now false).1.raws,
        r.processed = normOk source_name r.payload)
    ∧ ((runner_run st0 source_name ckType (fun _ => records) now false).1.raws.filter
        (fun r => !r.processed)).length
        = (records.filter (fun p => !(normOk source_name p))).length := by
  have hlen0 : ¬ records.length = 0 := fun h => hne (List.length_eq_zero.mp h)
  unfold runner_run run_incremental
  dsimp only
  simp only [if_neg hlen0]
  simp only [Bool.false_eq_true, false_and, if_false]
  have hraws1 : ∀ (status : ETLStatus) (e l f : Nat) (ck em : Option String)
      (v : String) (s2 : ETLStatus) (rp : Nat) (em2 : Option String) (cv : String),
      (create_or_update_checkpoint
        (complete_etl_run (save_raw_data (start_etl_run st0 cv) source_name records)
          status e l f ck em) v s2 rp em2).raws
      = mkRawRows source_name st0.next_raw_id records := by
    intro status e l f ck em v s2 rp em2 cv
    rw [cou_raws, complete_raws]
    show st0.raws ++ mkRawRows source_name st0.next_raw_id records = _
    rw [hraws, List.nil_append]
  simp only [unprocessedFor, hraws1, mkRawRows_filter_source]
  simp only [List.take_of_length_le (by
    rw [mkRawRows_length source_name st0.next_raw_id records]; exact hcap :
    (mkRawRows source_name st0.next_raw_id records).length ≤ 1000)]
  refine ⟨trivial, ?_, ?_, ?_, ?_⟩
  · exact failedIds_mkRawRows_length source_name records st0.next_raw_id
  · rw [load_fst, normalized_mkRawRows_length source_name records st0.next_raw_id]
    have hsum := filter_not_length records (fun p => normOk source_name p)
    omega
  · intro r hr
    rw [complete_raws] at hr
    dsimp only at hr
    rcases List.mem_map.mp hr with ⟨r0, hr0, hmark⟩
    by_cases hm : r0.id ∈ markIdsOf source_name (mkRawRows source_name st0.next_raw_id records)
    · rw [if_pos hm] at hmark
      rw [← hmark]
      have hnf := (mem_markIds_iff source_name _ r0 hr0).mp hm
      have hiff := mem_failed_mkRawRows_iff source_name records st0.next_raw_id r0 hr0
      cases hok : normOk source_name r0.payload with
      | false => exact absurd (hiff.mpr hok) hnf
      | true => rfl
    · rw [if_neg hm] at hmark
      rw [← hmark]
      have hfail : normOk source_name r0.payload = false := by
        by_contra hok
        have hok' : normOk source_name r0.payload = true := by
          revert hok; cases normOk source_name r0.payload <;> simp
        apply hm
        rw [mem_markIds_iff source_name _ r0 hr0,
          mem_failed_mkRawRows_iff source_name records st0.next_raw_id r0 hr0]
        simp [hok']
      have hproc : r0.processed = false :=
        (mkRawRows_fields source_name records st0.next_raw_id r0 hr0).2.2
      rw [hproc, hfail]
  · rw [complete_raws]
    dsimp only
    rw [List.filter_map]
    rw [List.length_map]
    rw [List.filter_congr (q := fun r =>
        !(normOk source_name r.payload))]
    · exact mkRawRows_filter_payload_length source_name records
        (fun p => !(normOk source_name p)) st0.next_raw_id
    · intro r0 hr0
      simp only [Function.comp]
      by_cases hm : r0.id ∈ markIdsOf source_name (mkRawRows source_name st0.next_raw_id records)
      · rw [if_pos hm]
        have hnf := (mem_markIds_iff source_name _ r0 hr0).mp hm
        have hiff := mem_failed_mkRawRows_iff source_name records st0.next_raw_id r0 hr0
        cases hok : normOk source_name r0.payload with
        | false => exact absurd (hiff.mpr hok) hnf
        | true => rfl
      · rw [if_neg hm]
        have hfail : normOk source_name r0.payload = false := by
          by_contra hok
          have hok' : normOk source_name r0.payload = true := by
            revert hok; cases normOk source_name r0.payload <;> simp
          apply hm
          rw [mem_markIds_iff source_name _ r0 hr0,
            mem_failed_mkRawRows_iff source_name records st0.next_raw_id r0 hr0]
          simp [hok']
        have hproc : r0.processed = false :=
          (mkRawRows_fields source_name records st0.next_raw_id r0 hr0).2.2
        rw [hproc, hfail]

/-- Witness for the amended claim C4: a clean-state run over two records of
which one (blank title) fails normalization. -/
theorem C4_partial_failure_accounting_witness :
    c4w_state0.raws = [] ∧ c4w_records ≠ [] ∧ c4w_records.length ≤ 1000
    ∧ ((runner_run c4w_state0 "api" CheckpointType.timestamp (fun _ => c4w_records) 9 false).2.records_extracted
          = c4w_records.length
      ∧ (runner_run c4w_state0 "api" CheckpointType.timestamp (fun _ => c4w_records) 9 false).2.records_failed
          = (c4w_records.filter (fun p => !(normOk "api" p))).length
      ∧ (runner_run c4w_state0 "api" CheckpointType.timestamp (fun _ => c4w_records) 9 false).2.records_loaded
          = c4w_records.length - (c4w_records.filter (fun p => !(normOk "api" p))).length
      ∧ (∀ r ∈ (runner_run c4w_state0 "api" CheckpointType.timestamp (fun _ => c4w_records) 9 false).1.raws,
          r.processed = normOk "api" r.payload)
      ∧ ((runner_run c4w_state0 "api" CheckpointType.timestamp (fun _ => c4w_records) 9 false).1.raws.filter
          (fun r => !r.processed)).length
          = (c4w_records.filter (fun p => !(normOk "api" p))).length) :=
  ⟨rfl, by decide, by decide,
   C4_partial_failure_accounting c4w_state0 "api" CheckpointType.timestamp
     c4w_records 9 rfl (by decide) (by decide)⟩
